import Mathlib

/-!
Verification of the undo-record decoder core of the bench-rest repository.

The definitions below are a shallow embedding of the Rust functions in
src/bin/bench.rs (the file the claims cite): byte buffers become `List Nat`
(each element a byte value), the stream cursor becomes explicit list passing,
the `u64`/`usize` machine integers become `Nat` with an explicit `% 2 ^ 64`
at the operations where overflow is reachable, and every failure mode
(returned errors as well as panics raised by assertions) becomes a
constructor of `DecodeError`.  Components the source pulls from the
bitcoin/secp256k1 crates (compact-size counts, script classification,
public-key parsing) are not part of the repository; they are modelled from
the specification, each marked as such in its doc comment.
-/

namespace BenchRest

/-- 2 ^ 64, the wrap-around modulus of the `u64`/`usize` machine integers. -/
def U64 : Nat := 2 ^ 64

/-- 2 ^ 32 - 1, the largest length accepted by PushBytesBuf.try_from. -/
def U32MAX : Nat := 2 ^ 32 - 1

/-- Every failure mode of the decoder core.  Returned errors of the Rust
code and panics raised by its assertions are both modelled as constructors,
so that each distinct failure of the source stays distinct in the model:
`truncatedInput` and `nonMinimalVarInt` are the propagated bitcoin
consensus-decoding errors, `reservedFieldNonzero` is the panic of
the reserved-field assertion in blockundo_decode, `invalidPublicKey` is the
panic of the bad-PublicKey expect in decompress_script,
`scriptClassAssertFailed` is the panic of the final script-class assertion,
`pushBytesOverflow` is the PushBytesBuf conversion error, and
`unreachableScriptType` is the panic of the unreachable template-code arm. -/
inductive DecodeError where
  | truncatedInput
  | nonMinimalVarInt
  | reservedFieldNonzero
  | invalidPublicKey
  | scriptClassAssertFailed
  | pushBytesOverflow
  | unreachableScriptType
deriving DecidableEq, Repr

/-- Embedding of `varint_decode` (src/bin/bench.rs lines 11-25): the custom
base-128 continuation-bit integer decoder.  The accumulator is the `usize`
`n` of the source (64-bit, wrapping), the list is the remaining stream; a
read past the end of the stream is the truncation error of
`u8::consensus_decode`.  Call with accumulator 0. -/
def varint_decode : List Nat → Nat → Except DecodeError (Nat × List Nat)
  | [], _ => .error .truncatedInput
  | b :: rest, n =>
    let n1 := ((n <<< 7) ||| (b &&& 0x7F)) % U64
    if b &&& 0x80 ≠ 0 then
      varint_decode rest ((n1 + 1) % U64)
    else
      .ok (n1, rest)

/-- Embedding of `decode_bytes` (src/bin/bench.rs lines 27-34): read `len`
bytes from the stream, or fail with the truncation error of `read_slice`. -/
def decode_bytes (l : List Nat) (len : Nat) : Except DecodeError (List Nat × List Nat) :=
  if len ≤ l.length then .ok (l.take len, l.drop len) else .error .truncatedInput

/-- The `SPECIAL_SCRIPTS` constant (src/bin/bench.rs line 36). -/
def SPECIAL_SCRIPTS : Nat := 6

/-- The wrapping `while e != 0 { n *= 10; e -= 1 }` loop closing
`decompress_amount` (src/bin/bench.rs lines 91-94); each `u64`
multiplication wraps at 2 ^ 64. -/
def mulPow10 (n : Nat) : Nat → Nat
  | 0 => n
  | e + 1 => mulPow10 (n * 10 % U64) e

/-- Embedding of `decompress_amount` (src/bin/bench.rs lines 72-96).  The
divisions, remainders and the `x * 10 + d` recombination cannot overflow a
`u64` for any `u64` input, so they carry no modulus; the trailing
multiply-by-ten loop can overflow and is the wrapping `mulPow10`. -/
def decompress_amount (x : Nat) : Nat :=
  if x = 0 then 0
  else
    let x1 := x - 1
    let e := x1 % 10
    let x2 := x1 / 10
    let n := if e < 9 then x2 / 9 * 10 + (x2 % 9 + 1) else x2 + 1
    mulPow10 n e

/-- The amount rule exactly as the specification words it (spec section 4.2):
for nonzero x, with e and q the split of x - 1, the result is the exact
natural number n * 10 ^ e, with no machine-integer wrap-around.  This is the
comparison point for claim C2. -/
def spec_decompress_amount (x : Nat) : Nat :=
  if x = 0 then 0
  else
    let x1 := x - 1
    let e := x1 % 10
    let q := x1 / 10
    let n := if e < 9 then q / 9 * 10 + (q % 9 + 1) else q + 1
    n * 10 ^ e

/-- Statistics accumulator (src/bin/bench.rs lines 98-104).  The counters
are modelled as exact naturals: their increments cannot overflow in any
decode of an addressable buffer, and an overflow would panic rather than
wrap in a checked build. -/
structure Stats where
  count : Nat
  count_by_type : List Nat
  spent : Nat
  scripts : Nat
deriving DecidableEq, Repr

/-- The all-zero `Stats::default()` value. -/
def zeroStats : Stats := ⟨0, [0, 0, 0, 0, 0, 0, 0], 0, 0⟩

/-- The histogram consistency invariant of claim C10: the histogram has its
seven buckets and the total count equals their sum. -/
def countHistInv (s : Stats) : Prop :=
  s.count_by_type.length = 7 ∧ s.count = s.count_by_type.sum

/-- Modelled from the spec: the push-data encoding used by the bitcoin
crate script `Builder::push_slice`, which is not part of this repository.
Data of fewer than 76 bytes is preceded by its one-byte length; longer data
uses the PUSHDATA1/PUSHDATA2/PUSHDATA4 opcodes 76/77/78 with a
little-endian length. -/
def pushEncode (d : List Nat) : List Nat :=
  if d.length < 76 then d.length :: d
  else if d.length < 256 then 76 :: d.length :: d
  else if d.length < 65536 then 77 :: d.length % 256 :: d.length / 256 :: d
  else 78 :: d.length % 256 :: d.length / 256 % 256 :: d.length / 65536 % 256 ::
    d.length / 16777216 % 256 :: d

/-- Modelled from the spec: the pay-to-pubkey-hash classifier of the bitcoin
crate (`Script::is_p2pkh`), used by the self-check assertion: 25 bytes,
OP_DUP OP_HASH160 PUSHBYTES_20 ... OP_EQUALVERIFY OP_CHECKSIG. -/
def is_p2pkh (s : List Nat) : Bool :=
  s.length == 25 && s.getD 0 0 == 0x76 && s.getD 1 0 == 0xA9 && s.getD 2 0 == 0x14 &&
    s.getD 23 0 == 0x88 && s.getD 24 0 == 0xAC

/-- Modelled from the spec: the pay-to-script-hash classifier of the bitcoin
crate (`Script::is_p2sh`): 23 bytes, OP_HASH160 PUSHBYTES_20 ... OP_EQUAL. -/
def is_p2sh (s : List Nat) : Bool :=
  s.length == 23 && s.getD 0 0 == 0xA9 && s.getD 1 0 == 0x14 && s.getD 22 0 == 0x87

/-- Modelled from the spec: the pay-to-pubkey classifier of the bitcoin
crate (`Script::is_p2pk`): a pushed 33- or 65-byte key followed by
OP_CHECKSIG. -/
def is_p2pk (s : List Nat) : Bool :=
  (s.length == 35 && s.getD 0 0 == 33 && s.getD 34 0 == 0xAC) ||
    (s.length == 67 && s.getD 0 0 == 65 && s.getD 66 0 == 0xAC)

/-- The secp256k1 field characteristic 2 ^ 256 - 2 ^ 32 - 977. -/
def secpP : Nat := 2 ^ 256 - 2 ^ 32 - 977

/-- Fuel-bounded binary modular exponentiation, used to extract modular
square roots when decompressing a public key. -/
def powModAux : Nat → Nat → Nat → Nat → Nat → Nat
  | 0, _, _, _, acc => acc
  | fuel + 1, b, e, m, acc =>
    if e = 0 then acc
    else powModAux fuel (b * b % m) (e / 2) m (if e % 2 = 1 then acc * b % m else acc)

/-- `powMod b e m` is b ^ e mod m for exponents below 2 ^ 300. -/
def powMod (b e m : Nat) : Nat := powModAux 300 (b % m) e m (1 % m)

/-- `beBytes k n` is the k-byte big-endian encoding of n. -/
def beBytes : Nat → Nat → List Nat
  | 0, _ => []
  | k + 1, n => beBytes k (n / 256) ++ [n % 256]

/-- The value of a big-endian byte list. -/
def beVal (l : List Nat) : Nat := l.foldl (fun a b => a * 256 + b) 0

/-- Modelled from the spec: parsing a serialized secp256k1 public key and
re-serializing it uncompressed, which the source performs through
`PublicKey::from_slice`, `compressed = false` and `to_bytes` of the bitcoin
crate (not part of this repository).  A 33-byte input must carry an even/odd
marker byte 2 or 3 and an x-coordinate below the field characteristic whose
cube plus seven has a modular square root; the root with the marked parity
is the y-coordinate of the uncompressed key 4 ‖ x ‖ y.  A 65-byte input
must carry marker 4 and a point on the curve, and is returned verbatim.
Anything else does not parse as a valid elliptic-curve point. -/
def pubkeyDecompress (data : List Nat) : Option (List Nat) :=
  match data with
  | [] => none
  | pfx :: xs =>
    if (pfx = 2 ∨ pfx = 3) ∧ xs.length = 32 then
      let x := beVal xs
      if x < secpP then
        let rhs := (x * x % secpP * x + 7) % secpP
        let y0 := powMod rhs ((secpP + 1) / 4) secpP
        if y0 * y0 % secpP = rhs then
          let y := if y0 % 2 = pfx % 2 then y0 else secpP - y0
          some (4 :: beBytes 32 x ++ beBytes 32 y)
        else none
      else none
    else if pfx = 4 ∧ xs.length = 64 then
      let x := beVal (xs.take 32)
      let y := beVal (xs.drop 32)
      if x < secpP ∧ y < secpP ∧ y * y % secpP = (x * x % secpP * x + 7) % secpP then
        some (4 :: xs)
      else none
    else none

/-- The builder match of `decompress_script` (src/bin/bench.rs lines
40-67).  Each arm of the Rust match over the template code builds the
script bytes; the `PushBytesBuf::try_from` conversion fails for data longer
than 2 ^ 32 - 1 bytes, the bad-PublicKey expect of the uncompressed-key
arms panics (`invalidPublicKey`) when the prefixed payload does not parse,
and the last arm panics (`unreachableScriptType`) for any other code. -/
def buildScript (script_type : Nat) (bytes : List Nat) :
    Except DecodeError (List Nat) :=
  if script_type = 0 then
    if bytes.length ≤ U32MAX then
      .ok ([0x76, 0xA9] ++ (pushEncode bytes ++ [0x88, 0xAC]))
    else .error .pushBytesOverflow
  else if script_type = 1 then
    if bytes.length ≤ U32MAX then
      .ok ([0xA9] ++ (pushEncode bytes ++ [0x87]))
    else .error .pushBytesOverflow
  else if script_type = 2 ∨ script_type = 3 then
    if (script_type :: bytes).length ≤ U32MAX then
      .ok (pushEncode (script_type :: bytes) ++ [0xAC])
    else .error .pushBytesOverflow
  else if script_type = 4 ∨ script_type = 5 then
    match pubkeyDecompress ((script_type - 2) :: bytes) with
    | some full => .ok (pushEncode full ++ [0xAC])
    | none => .error .invalidPublicKey
  else .error .unreachableScriptType

/-- Embedding of `decompress_script` (src/bin/bench.rs lines 38-70):
`buildScript` followed by the closing self-check
`assert!(is_p2pk || is_p2pkh || is_p2sh)`, whose panic is the
`scriptClassAssertFailed` failure. -/
def decompress_script (script_type : Nat) (bytes : List Nat) :
    Except DecodeError (List Nat) :=
  match buildScript script_type bytes with
  | .error e => .error e
  | .ok s =>
    if is_p2pk s || is_p2pkh s || is_p2sh s then .ok s
    else .error .scriptClassAssertFailed

/-- The two statistics mutations at the head of `script_decode`: the total
count increment (line 108 of the source) and the histogram bucket increment
for index `i` (line 116 or 120).  In the source the two sit a few lines
apart, but no fallible operation runs between them, so they are one
combined update on every path. -/
def statsBump (s : Stats) (i : Nat) : Stats :=
  { s with count := s.count + 1,
           count_by_type := s.count_by_type.set i (s.count_by_type.getD i 0 + 1) }

/-- Embedding of `script_decode` (src/bin/bench.rs lines 106-124).  The
returned `Stats` is the accumulator as left by the call, whether it
succeeds or fails, mirroring the in-place mutation of the source: the total
count and the histogram bucket are updated (`statsBump`) as soon as the
leading varint is read, before the payload bytes are read.  The source
match sends codes 0 and 1 to a 20-byte payload and codes 2 through 5 to a
32-byte payload (its remaining arm is unreachable under `len < 6`). -/
def script_decode (l : List Nat) (s : Stats) :
    Stats × Except DecodeError (List Nat × List Nat) :=
  match varint_decode l 0 with
  | .error e => (s, .error e)
  | .ok (len, l1) =>
    if len < SPECIAL_SCRIPTS then
      match decode_bytes l1 (if len < 2 then 20 else 32) with
      | .error e => (statsBump s len, .error e)
      | .ok (compressed, l2) =>
        match decompress_script len compressed with
        | .error e => (statsBump s len, .error e)
        | .ok script => (statsBump s len, .ok (script, l2))
    else
      match decode_bytes l1 (len - SPECIAL_SCRIPTS) with
      | .error e => (statsBump s 6, .error e)
      | .ok (raw, l2) => (statsBump s 6, .ok (raw, l2))

/-- Modelled from the spec: the standard compact-size count decoder used for
the transaction and input counts (`VarInt::consensus_decode` of the bitcoin
crate, not part of this repository).  One byte below 0xFD is the value
itself; markers 0xFD/0xFE/0xFF introduce a 2-, 4- or 8-byte little-endian
value, rejected as non-minimal when it would fit a shorter form. -/
def compactSizeDecode (l : List Nat) : Except DecodeError (Nat × List Nat) :=
  match l with
  | [] => .error .truncatedInput
  | b :: rest =>
    if b < 0xFD then .ok (b, rest)
    else if b = 0xFD then
      match rest with
      | b0 :: b1 :: r =>
        let v := b0 + 256 * b1
        if v < 0xFD then .error .nonMinimalVarInt else .ok (v, r)
      | _ => .error .truncatedInput
    else if b = 0xFE then
      match rest with
      | b0 :: b1 :: b2 :: b3 :: r =>
        let v := b0 + 256 * (b1 + 256 * (b2 + 256 * b3))
        if v ≤ 0xFFFF then .error .nonMinimalVarInt else .ok (v, r)
      | _ => .error .truncatedInput
    else
      match rest with
      | b0 :: b1 :: b2 :: b3 :: b4 :: b5 :: b6 :: b7 :: r =>
        let v := b0 + 256 * (b1 + 256 * (b2 + 256 * (b3 + 256 * (b4 + 256 *
          (b5 + 256 * (b6 + 256 * b7))))))
        if v ≤ 0xFFFFFFFF then .error .nonMinimalVarInt else .ok (v, r)
      | _ => .error .truncatedInput

/-- Embedding of the per-input body of `blockundo_decode`
(src/bin/bench.rs lines 132-136), the per-input record decoder of spec
section 4.4: read and discard the height/coinbase varint, read the reserved
varint and panic (`reservedFieldNonzero`) unless it is zero, add the
decompressed amount to the value total, decode the script and add its
length to the script-size total.  The returned `Stats` is the accumulator
as left by the call, whether it succeeds or fails. -/
def undo_input_decode (l : List Nat) (s : Stats) :
    Stats × Except DecodeError (List Nat) :=
  match varint_decode l 0 with
  | .error e => (s, .error e)
  | .ok (_height_coinbase, lh) =>
    match varint_decode lh 0 with
    | .error e => (s, .error e)
    | .ok (reserved, lr) =>
      if reserved ≠ 0 then (s, .error .reservedFieldNonzero)
      else
        match varint_decode lr 0 with
        | .error e => (s, .error e)
        | .ok (x, lx) =>
          match script_decode lx { s with spent := s.spent + decompress_amount x } with
          | (s2, .error e) => (s2, .error e)
          | (s2, .ok (script, l4)) =>
            ({ s2 with scripts := s2.scripts + script.length }, .ok l4)

/-- The inner `for _ in 0..txin_count` loop of `blockundo_decode`: decode
`k` undo records in sequence, stopping at the first failure. -/
def undo_inputs (k : Nat) (l : List Nat) (s : Stats) :
    Stats × Except DecodeError (List Nat) :=
  match k with
  | 0 => (s, .ok l)
  | k + 1 =>
    match undo_input_decode l s with
    | (s1, .error e) => (s1, .error e)
    | (s1, .ok l1) => undo_inputs k l1 s1

/-- The outer `for _ in 0..tx_count` loop of `blockundo_decode`: for each
transaction, decode the standard compact-size input count and that many
undo records. -/
def undo_txs (k : Nat) (l : List Nat) (s : Stats) :
    Stats × Except DecodeError (List Nat) :=
  match k with
  | 0 => (s, .ok l)
  | k + 1 =>
    match compactSizeDecode l with
    | .error e => (s, .error e)
    | .ok (txin_count, l1) =>
      match undo_inputs txin_count l1 s with
      | (s1, .error e) => (s1, .error e)
      | (s1, .ok l2) => undo_txs k l2 s1

/-- Embedding of `blockundo_decode` (src/bin/bench.rs lines 126-140): the
standard compact-size transaction count followed by the per-transaction
loops.  On success the unconsumed remainder of the buffer is returned, so
exact consumption is the remainder being empty. -/
def blockundo_decode (data : List Nat) (s : Stats) :
    Stats × Except DecodeError (List Nat) :=
  match compactSizeDecode data with
  | .error e => (s, .error e)
  | .ok (tx_count, l1) => undo_txs tx_count l1 s

/-- The compression direction of the amount codec (Bitcoin Core
CompressAmount): strip up to nine trailing decimal zeros with `stripTZ`,
then pack the remaining digits.  Used to exhibit preimages of
`decompress_amount`. -/
def stripTZ : Nat → Nat → Nat × Nat
  | 0, n => (n, 0)
  | f + 1, n =>
    if n % 10 = 0 then
      let p := stripTZ f (n / 10)
      (p.1, p.2 + 1)
    else (n, 0)

/-- The amount compressor inverse to `decompress_amount`. -/
def compress_amount (v : Nat) : Nat :=
  if v = 0 then 0
  else
    let p := stripTZ 9 v
    let m := p.1
    let e := p.2
    if e < 9 then 1 + (m / 10 * 9 + m % 10 - 1) * 10 + e
    else 1 + (m - 1) * 10 + 9

/-- The x-coordinate of the secp256k1 base point, used as a known valid
test key. -/
def gx : Nat := 0x79BE667EF9DCBBAC55A06295CE870B07029BFCDB2DCE28D959F2815B16F81798

/-- The (even) y-coordinate of the secp256k1 base point. -/
def gy : Nat := 0x483ADA7726A3C4655DA4FBFC0E1108A8FD17B448A68554199C47D08FFB10D4B8

/-! ### Helper lemmas -/

theorem beBytes_length (k n : Nat) : (beBytes k n).length = k := by
  induction k generalizing n with
  | zero => rfl
  | succ k ih => simp [beBytes, ih]

theorem pushEncode_lt76 (k : List Nat) (h : k.length < 76) :
    pushEncode k = k.length :: k := by
  unfold pushEncode
  rw [if_pos h]

theorem pushEncode_head_lt (k r : List Nat) : (pushEncode k ++ r).getD 0 0 < 79 := by
  unfold pushEncode
  split_ifs with h1 h2 h3 <;> (simp [List.getD_cons_zero]; try omega)

theorem pubkeyDecompress_shape (d full : List Nat)
    (h : pubkeyDecompress d = some full) :
    full.length = 65 ∧ full.getD 0 0 = 4 := by
  rcases d with _ | ⟨pfx, xs⟩
  · cases h
  · simp only [pubkeyDecompress] at h
    split_ifs at h with h1 h2 h3 h4 h5 h6
    all_goals cases h
    all_goals refine ⟨?_, rfl⟩
    all_goals simp [beBytes_length]
    all_goals omega

theorem is_p2pk_head (s : List Nat) (h : is_p2pk s = true) :
    s.getD 0 0 = 33 ∨ s.getD 0 0 = 65 := by
  unfold is_p2pk at h
  simp only [Bool.or_eq_true, Bool.and_eq_true, beq_iff_eq] at h
  rcases h with ⟨⟨_, h2⟩, _⟩ | ⟨⟨_, h2⟩, _⟩
  · exact Or.inl h2
  · exact Or.inr h2

theorem is_p2pkh_head (s : List Nat) (h : is_p2pkh s = true) :
    s.getD 0 0 = 118 := by
  unfold is_p2pkh at h
  simp only [Bool.and_eq_true, beq_iff_eq] at h
  exact h.1.1.1.1.2

theorem is_p2sh_head (s : List Nat) (h : is_p2sh s = true) :
    s.getD 0 0 = 169 := by
  unfold is_p2sh at h
  simp only [Bool.and_eq_true, beq_iff_eq] at h
  exact h.1.1.2

theorem is_p2pkh_code0_shape (payload : List Nat) (h : payload.length = 20) :
    is_p2pkh ([118, 169, 20] ++ (payload ++ [136, 172])) = true := by
  have e0 : ([118, 169, 20] ++ (payload ++ [136, 172])).getD 0 0 = 118 := by
    rw [List.getD_append [118, 169, 20] (payload ++ [136, 172]) 0 0 (by norm_num)]
    decide
  have e1 : ([118, 169, 20] ++ (payload ++ [136, 172])).getD 1 0 = 169 := by
    rw [List.getD_append [118, 169, 20] (payload ++ [136, 172]) 0 1 (by norm_num)]
    decide
  have e2 : ([118, 169, 20] ++ (payload ++ [136, 172])).getD 2 0 = 20 := by
    rw [List.getD_append [118, 169, 20] (payload ++ [136, 172]) 0 2 (by norm_num)]
    decide
  have e23 : ([118, 169, 20] ++ (payload ++ [136, 172])).getD 23 0 = 136 := by
    rw [List.getD_append_right [118, 169, 20] (payload ++ [136, 172]) 0 23 (by norm_num)]
    show (payload ++ [136, 172]).getD 20 0 = 136
    rw [List.getD_append_right payload [136, 172] 0 20 (le_of_eq h)]
    rw [h]
    decide
  have e24 : ([118, 169, 20] ++ (payload ++ [136, 172])).getD 24 0 = 172 := by
    rw [List.getD_append_right [118, 169, 20] (payload ++ [136, 172]) 0 24 (by norm_num)]
    show (payload ++ [136, 172]).getD 21 0 = 172
    rw [List.getD_append_right payload [136, 172] 0 21 (by omega)]
    rw [h]
    decide
  have elen : ([118, 169, 20] ++ (payload ++ [136, 172])).length = 25 := by
    simp [h]
  unfold is_p2pkh
  rw [e0, e1, e2, e23, e24, elen]
  simp

theorem is_p2sh_code1_shape (payload : List Nat) (h : payload.length = 20) :
    is_p2sh ([169, 20] ++ (payload ++ [135])) = true := by
  have e0 : ([169, 20] ++ (payload ++ [135])).getD 0 0 = 169 := by
    rw [List.getD_append [169, 20] (payload ++ [135]) 0 0 (by norm_num)]
    decide
  have e1 : ([169, 20] ++ (payload ++ [135])).getD 1 0 = 20 := by
    rw [List.getD_append [169, 20] (payload ++ [135]) 0 1 (by norm_num)]
    decide
  have e22 : ([169, 20] ++ (payload ++ [135])).getD 22 0 = 135 := by
    rw [List.getD_append_right [169, 20] (payload ++ [135]) 0 22 (by norm_num)]
    show (payload ++ [135]).getD 20 0 = 135
    rw [List.getD_append_right payload [135] 0 20 (le_of_eq h)]
    rw [h]
    decide
  have elen : ([169, 20] ++ (payload ++ [135])).length = 23 := by
    simp [h]
  unfold is_p2sh
  rw [e0, e1, e22, elen]
  simp

theorem is_p2pk_code23_shape (c : Nat) (payload : List Nat) (h : payload.length = 32) :
    is_p2pk ([33, c] ++ (payload ++ [172])) = true := by
  have e0 : ([33, c] ++ (payload ++ [172])).getD 0 0 = 33 := by
    rw [List.getD_append [33, c] (payload ++ [172]) 0 0 (by norm_num)]
    rfl
  have e34 : ([33, c] ++ (payload ++ [172])).getD 34 0 = 172 := by
    rw [List.getD_append_right [33, c] (payload ++ [172]) 0 34 (by norm_num)]
    show (payload ++ [172]).getD 32 0 = 172
    rw [List.getD_append_right payload [172] 0 32 (le_of_eq h)]
    rw [h]
    decide
  have elen : ([33, c] ++ (payload ++ [172])).length = 35 := by
    simp [h]
  unfold is_p2pk
  rw [e0, e34, elen]
  simp

theorem is_p2pk_code45_shape (full : List Nat) (h : full.length = 65) :
    is_p2pk (65 :: (full ++ [172])) = true := by
  have e0 : (65 :: (full ++ [172])).getD 0 0 = 65 := rfl
  have e66 : (65 :: (full ++ [172])).getD 66 0 = 172 := by
    show (full ++ [172]).getD 65 0 = 172
    rw [List.getD_append_right full [172] 0 65 (by omega)]
    rw [h]
    decide
  have elen : (65 :: (full ++ [172])).length = 67 := by
    simp [h]
  unfold is_p2pk
  rw [e0, e66, elen]
  simp

theorem buildScript_code0 (payload : List Nat) (h : payload.length = 20) :
    buildScript 0 payload = .ok ([118, 169, 20] ++ (payload ++ [136, 172])) := by
  unfold buildScript
  rw [pushEncode_lt76 payload (by omega), h]
  simp [U32MAX, h]

theorem buildScript_code1 (payload : List Nat) (h : payload.length = 20) :
    buildScript 1 payload = .ok ([169, 20] ++ (payload ++ [135])) := by
  unfold buildScript
  rw [pushEncode_lt76 payload (by omega), h]
  simp [U32MAX, h]

theorem buildScript_code23 (c : Nat) (payload : List Nat) (hc : c = 2 ∨ c = 3)
    (h : payload.length = 32) :
    buildScript c payload = .ok ([33, c] ++ (payload ++ [172])) := by
  have hp : pushEncode (c :: payload) = 33 :: c :: payload := by
    rw [pushEncode_lt76 (c :: payload) (by simp [h])]
    simp [h]
  rcases hc with rfl | rfl <;>
    · unfold buildScript
      rw [hp]
      simp [U32MAX, h]

theorem buildScript_code45 (c : Nat) (payload full : List Nat) (hc : c = 4 ∨ c = 5)
    (hfull : pubkeyDecompress ((c - 2) :: payload) = some full) :
    buildScript c payload = .ok (65 :: (full ++ [172])) := by
  have h65 : full.length = 65 := (pubkeyDecompress_shape _ _ hfull).1
  have hp : pushEncode full = 65 :: full := by
    rw [pushEncode_lt76 full (by omega)]
    rw [h65]
  rcases hc with rfl | rfl <;>
    · unfold buildScript
      simp [hfull, hp]

theorem decompress_script_of_build (t : Nat) (payload s : List Nat)
    (hb : buildScript t payload = .ok s)
    (hcls : (is_p2pk s || is_p2pkh s || is_p2sh s) = true) :
    decompress_script t payload = .ok s := by
  unfold decompress_script
  rw [hb]
  show (if (is_p2pk s || is_p2pkh s || is_p2sh s) = true then Except.ok s
    else Except.error DecodeError.scriptClassAssertFailed) = Except.ok s
  rw [hcls]
  simp

theorem decompress_script_code0 (payload : List Nat) (h : payload.length = 20) :
    decompress_script 0 payload = .ok ([118, 169, 20] ++ (payload ++ [136, 172])) :=
  decompress_script_of_build 0 payload _ (buildScript_code0 payload h)
    (by rw [is_p2pkh_code0_shape payload h]; simp)

theorem decompress_script_code1 (payload : List Nat) (h : payload.length = 20) :
    decompress_script 1 payload = .ok ([169, 20] ++ (payload ++ [135])) :=
  decompress_script_of_build 1 payload _ (buildScript_code1 payload h)
    (by rw [is_p2sh_code1_shape payload h]; simp)

theorem decompress_script_code23 (c : Nat) (payload : List Nat) (hc : c = 2 ∨ c = 3)
    (h : payload.length = 32) :
    decompress_script c payload = .ok ([33, c] ++ (payload ++ [172])) :=
  decompress_script_of_build c payload _ (buildScript_code23 c payload hc h)
    (by rw [is_p2pk_code23_shape c payload h]; simp)

theorem decompress_script_code45 (c : Nat) (payload full : List Nat) (hc : c = 4 ∨ c = 5)
    (hfull : pubkeyDecompress ((c - 2) :: payload) = some full) :
    decompress_script c payload = .ok (65 :: (full ++ [172])) :=
  decompress_script_of_build c payload _ (buildScript_code45 c payload full hc hfull)
    (by rw [is_p2pk_code45_shape full (pubkeyDecompress_shape _ _ hfull).1]; simp)

theorem mulPow10_eq (e : Nat) : ∀ n : Nat, n < U64 → mulPow10 n e = n * 10 ^ e % U64 := by
  induction e with
  | zero =>
    intro n hn
    simp [mulPow10, Nat.mod_eq_of_lt hn]
  | succ e ih =>
    intro n hn
    have h1 : n * 10 % U64 < U64 := Nat.mod_lt _ (by decide)
    calc mulPow10 n (e + 1) = mulPow10 (n * 10 % U64) e := rfl
      _ = n * 10 % U64 * 10 ^ e % U64 := ih _ h1
      _ = n * 10 * 10 ^ e % U64 := Nat.mod_mul_mod
      _ = n * 10 ^ (e + 1) % U64 := by rw [pow_succ]; ring_nf

theorem decompress_amount_spec_mod (x : Nat) (hx : x < U64) :
    decompress_amount x = spec_decompress_amount x % U64 := by
  by_cases h0 : x = 0
  · simp [decompress_amount, spec_decompress_amount, h0]
  · have hxlit : x < 18446744073709551616 := hx
    simp only [decompress_amount, spec_decompress_amount, if_neg h0]
    apply mulPow10_eq
    show _ < 2 ^ 64
    split
    · omega
    · omega

theorem script_decode_scripts (l : List Nat) (s : Stats) :
    (script_decode l s).1.scripts = s.scripts := by
  unfold script_decode
  split
  · rfl
  · split
    · split
      · rfl
      · split <;> rfl
    · split <;> rfl

/-! ### Claim C1 -/

/-- C1, counterexample: the third regression vector of the claim fails on
the code.  Decoding the byte sequence 0x81 0x00 yields 256, not 128 (128 is
encoded as 0x80 0x00 in this format). -/
theorem c1_vector_0x81_0x00_counterexample :
    varint_decode [0x81, 0x00] 0 = .ok (256, []) ∧ (256 : Nat) ≠ 128 :=
  ⟨rfl, by decide⟩

/-- C1, amended: the CompactInt decoder follows the spec algorithm (the
accumulator starts at 0, each byte folds in through shift-or of its low 7
bits, a set high bit adds 1 and continues, a clear high bit terminates),
and the regression vectors are: decoding 0x00 yields 0, decoding 0x7F
yields 127, decoding 0x80 0x00 yields 128 (continuation increment applied),
while decoding 0x81 0x00 yields 256. -/
theorem c1_compact_int_decoder_algorithm :
    (∀ (b : Nat) (rest : List Nat) (n : Nat),
        varint_decode (b :: rest) n =
          if b &&& 0x80 ≠ 0 then
            varint_decode rest ((((n <<< 7) ||| (b &&& 0x7F)) % U64 + 1) % U64)
          else .ok (((n <<< 7) ||| (b &&& 0x7F)) % U64, rest)) ∧
      (∀ n : Nat, varint_decode [] n = .error .truncatedInput) ∧
      varint_decode [0x00] 0 = .ok (0, []) ∧
      varint_decode [0x7F] 0 = .ok (127, []) ∧
      varint_decode [0x80, 0x00] 0 = .ok (128, []) ∧
      varint_decode [0x81, 0x00] 0 = .ok (256, []) :=
  ⟨fun _ _ _ => rfl, fun _ => rfl, rfl, rfl, rfl, rfl⟩

/-! ### Claim C2 -/

/-- C2, counterexample: at input 2 ^ 64 - 1 the while loop multiplying by
ten overflows the u64 accumulator, so the returned value is the spec value
reduced modulo 2 ^ 64, not the spec value itself. -/
theorem c2_decompress_amount_overflow_counterexample :
    decompress_amount (2 ^ 64 - 1) = 2049638230412174624 ∧
      spec_decompress_amount (2 ^ 64 - 1) = 20496382304121724020000 ∧
      decompress_amount (2 ^ 64 - 1) ≠ spec_decompress_amount (2 ^ 64 - 1) := by
  refine ⟨by decide, by decide, ?_⟩
  decide

/-- C2, amended: for every u64 input x, decompress_amount returns the value
given by the spec rule reduced modulo 2 ^ 64 (the closing multiply-by-ten
loop wraps); in particular the result equals the spec rule value exactly
whenever that value fits in a u64. -/
theorem c2_decompress_amount_matches_spec_mod_u64 (x : Nat) (hx : x < U64) :
    decompress_amount x = spec_decompress_amount x % U64 ∧
      (spec_decompress_amount x < U64 →
        decompress_amount x = spec_decompress_amount x) := by
  refine ⟨decompress_amount_spec_mod x hx, fun hs => ?_⟩
  rw [decompress_amount_spec_mod x hx, Nat.mod_eq_of_lt hs]

/-- C2, witness: at the compressed input 50 (which decodes to the 50-BTC
block subsidy) the code value and the spec value agree. -/
theorem c2_decompress_amount_matches_spec_mod_u64_witness :
    decompress_amount 50 = spec_decompress_amount 50 % U64 ∧
      (spec_decompress_amount 50 < U64 → decompress_amount 50 = spec_decompress_amount 50) :=
  c2_decompress_amount_matches_spec_mod_u64 50 (by decide)

/-! ### Claim C3 -/

/-- C3, counterexample: on a buffer truncated mid-payload (one transaction,
one input, height 0, reserved 0, amount varint 50, template code 0, and
none of the 20 payload bytes), decoding fails with TruncatedInput, yet the
failing record has already contributed to the count, the histogram, and the
value total of the Stats accumulator. -/
theorem c3_partial_stats_on_failure_counterexample :
    blockundo_decode [1, 1, 0, 0, 50, 0] zeroStats =
        (⟨1, [1, 0, 0, 0, 0, 0, 0], 5000000000, 0⟩, .error .truncatedInput) ∧
      (⟨1, [1, 0, 0, 0, 0, 0, 0], 5000000000, 0⟩ : Stats) ≠ zeroStats := by
  constructor
  · rfl
  · decide

/-- C3, amended: decoding a block-undo buffer is not atomic per record:
when decoding a record fails, updates already made to Stats persist (the
count and the histogram bucket are incremented as soon as the script-type
varint is read, and the value total as soon as the amount is decoded, all
before the script payload is read), and decoding aborts at the failure, so
only the script-size total is guaranteed to receive no contribution from
the failing record. -/
theorem c3_failing_record_leaves_scripts_total_unchanged
    (l : List Nat) (s s1 : Stats) (e : DecodeError)
    (h : undo_input_decode l s = (s1, .error e)) : s1.scripts = s.scripts := by
  rcases hv1 : varint_decode l 0 with e1 | ⟨hgt, lh⟩ <;>
    simp only [undo_input_decode, hv1] at h
  · injection h with ha _; rw [← ha]
  · rcases hv2 : varint_decode lh 0 with e2 | ⟨r, lr⟩ <;> simp only [hv2] at h
    · injection h with ha _; rw [← ha]
    · by_cases hr : r ≠ 0
      · rw [if_pos hr] at h
        injection h with ha _; rw [← ha]
      · rw [if_neg hr] at h
        rcases hv3 : varint_decode lr 0 with e3 | ⟨x, lx⟩ <;> simp only [hv3] at h
        · injection h with ha _; rw [← ha]
        · rcases hsd : script_decode lx { s with spent := s.spent + decompress_amount x }
            with ⟨s2, e4 | ⟨script, l4⟩⟩ <;> simp only [hsd] at h
          · injection h with ha _
            rw [← ha]
            have hs := script_decode_scripts lx { s with spent := s.spent + decompress_amount x }
            rw [hsd] at hs
            exact hs
          · injection h with _ hb
            exact absurd hb (by simp)

/-- C3, witness: a single record truncated inside its script payload leaves
the script-size total of the accumulator unchanged. -/
theorem c3_failing_record_leaves_scripts_total_unchanged_witness :
    (⟨1, [1, 0, 0, 0, 0, 0, 0], 5000000000, 0⟩ : Stats).scripts = zeroStats.scripts :=
  c3_failing_record_leaves_scripts_total_unchanged [0, 0, 50, 0] zeroStats
    ⟨1, [1, 0, 0, 0, 0, 0, 0], 5000000000, 0⟩ .truncatedInput rfl

/-! ### Claim C4 -/

/-- C4: a record whose reserved field decodes to a nonzero value makes the
per-input record decoder fail with the distinct reservedFieldNonzero
failure (the panic of the reserved-field assertion, modelled as its own
error constructor, never merged with the other failure modes), and the
Stats accumulator is returned exactly as it was handed in. -/
theorem c4_reserved_nonzero_distinct_failure_stats_unmutated
    (l : List Nat) (s : Stats) (hgt r : Nat) (l1 l2 : List Nat)
    (h1 : varint_decode l 0 = .ok (hgt, l1))
    (h2 : varint_decode l1 0 = .ok (r, l2)) (hr : r ≠ 0) :
    undo_input_decode l s = (s, .error .reservedFieldNonzero) := by
  simp only [undo_input_decode, h1, h2]
  simp [hr]

/-- C4, witness: the two-byte record fragment with height varint 0 and
reserved varint 1 fails with reservedFieldNonzero and leaves the zero
accumulator untouched. -/
theorem c4_reserved_nonzero_distinct_failure_stats_unmutated_witness :
    undo_input_decode [0, 1] zeroStats = (zeroStats, .error .reservedFieldNonzero) :=
  c4_reserved_nonzero_distinct_failure_stats_unmutated [0, 1] zeroStats 0 1 [1] []
    rfl rfl (by decide)

/-! ### Claim C5 -/

/-- C5: each template code with a payload of the required size produces
exactly the specified script: code 0 with 20 bytes gives the 25-byte
DUP HASH160 PUSH20 payload EQUALVERIFY CHECKSIG script, code 1 with 20
bytes the 23-byte HASH160 PUSH20 payload EQUAL script, codes 2 and 3 with
32 bytes a pay-to-pubkey script pushing the 33-byte key whose first byte is
the template code followed by CHECKSIG, and codes 4 and 5 with 32 bytes a
pay-to-pubkey script pushing the corresponding 65-byte uncompressed key
(the decompression of the payload prefixed with code minus 2) followed by
CHECKSIG. -/
theorem c5_decompress_script_templates :
    (∀ payload : List Nat, payload.length = 20 →
        decompress_script 0 payload = .ok ([118, 169, 20] ++ (payload ++ [136, 172]))) ∧
      (∀ payload : List Nat, payload.length = 20 →
        decompress_script 1 payload = .ok ([169, 20] ++ (payload ++ [135]))) ∧
      (∀ (c : Nat) (payload : List Nat), (c = 2 ∨ c = 3) → payload.length = 32 →
        decompress_script c payload = .ok ([33, c] ++ (payload ++ [172]))) ∧
      (∀ (c : Nat) (payload full : List Nat), (c = 4 ∨ c = 5) → payload.length = 32 →
        pubkeyDecompress ((c - 2) :: payload) = some full →
        decompress_script c payload = .ok (65 :: (full ++ [172])) ∧
          full.length = 65 ∧ full.getD 0 0 = 4) :=
  ⟨fun payload h => decompress_script_code0 payload h,
   fun payload h => decompress_script_code1 payload h,
   fun c payload hc h => decompress_script_code23 c payload hc h,
   fun c payload full hc _ hfull =>
     ⟨decompress_script_code45 c payload full hc hfull,
      (pubkeyDecompress_shape _ _ hfull).1, (pubkeyDecompress_shape _ _ hfull).2⟩⟩

set_option maxRecDepth 8000 in
/-- C5, witness: the four template families evaluated at concrete payloads
(all-zero hashes for codes 0, 1 and 2, and the base-point x-coordinate for
code 4). -/
theorem c5_decompress_script_templates_witness :
    decompress_script 0 (List.replicate 20 0) =
        .ok ([118, 169, 20] ++ (List.replicate 20 0 ++ [136, 172])) ∧
      decompress_script 1 (List.replicate 20 0) =
        .ok ([169, 20] ++ (List.replicate 20 0 ++ [135])) ∧
      decompress_script 2 (List.replicate 32 0) =
        .ok ([33, 2] ++ (List.replicate 32 0 ++ [172])) ∧
      decompress_script 4 (beBytes 32 gx) =
        .ok (65 :: ((4 :: beBytes 32 gx ++ beBytes 32 gy) ++ [172])) :=
  ⟨c5_decompress_script_templates.1 _ (by simp),
   c5_decompress_script_templates.2.1 _ (by simp),
   c5_decompress_script_templates.2.2.1 2 _ (Or.inl rfl) (by simp),
   (c5_decompress_script_templates.2.2.2 4 _ _ (Or.inl rfl)
      (by simp [beBytes_length]) (by rfl)).1⟩

/-! ### Claim C6 -/

/-- C6: whenever decompress_script succeeds, the produced script classifies
as exactly one of pay-to-pubkey, pay-to-pubkey-hash, pay-to-script-hash. -/
theorem c6_script_classifies_exactly_one (t : Nat) (payload s : List Nat)
    (h : decompress_script t payload = .ok s) :
    (is_p2pk s = true ∧ is_p2pkh s = false ∧ is_p2sh s = false) ∨
      (is_p2pkh s = true ∧ is_p2pk s = false ∧ is_p2sh s = false) ∨
      (is_p2sh s = true ∧ is_p2pk s = false ∧ is_p2pkh s = false) := by
  have hcond : (is_p2pk s || is_p2pkh s || is_p2sh s) = true := by
    unfold decompress_script at h
    rcases hb : buildScript t payload with e | s0 <;> rw [hb] at h
    · cases h
    · change (if (is_p2pk s0 || is_p2pkh s0 || is_p2sh s0) = true then Except.ok s0
        else Except.error DecodeError.scriptClassAssertFailed) = Except.ok s at h
      split at h
      · next hcnd =>
          injection h with hs
          rw [← hs]
          exact hcnd
      · cases h
  have hhead : s.getD 0 0 = 118 ∨ s.getD 0 0 = 169 ∨ s.getD 0 0 < 79 := by
    unfold decompress_script at h
    rcases hb : buildScript t payload with e | s0 <;> rw [hb] at h
    · cases h
    · have hs0 : s0 = s := by
        change (if (is_p2pk s0 || is_p2pkh s0 || is_p2sh s0) = true then Except.ok s0
          else Except.error DecodeError.scriptClassAssertFailed) = Except.ok s at h
        split at h
        · exact Except.ok.inj h
        · cases h
      subst hs0
      unfold buildScript at hb
      split_ifs at hb with h0 hl0 h1 hl1 h23 hl23 h45
      all_goals try cases hb
      all_goals try (rcases hpk : pubkeyDecompress ((t - 2) :: payload) with _ | full <;>
        rw [hpk] at hb)
      all_goals try cases hb
      all_goals first
        | exact Or.inl rfl
        | exact Or.inr (Or.inl rfl)
        | exact Or.inr (Or.inr (pushEncode_head_lt _ _))
  have npk : s.getD 0 0 ≠ 33 → s.getD 0 0 ≠ 65 → is_p2pk s = false := by
    intro hn1 hn2
    cases hx : is_p2pk s
    · rfl
    · rcases is_p2pk_head s hx with hh | hh
      · exact absurd hh hn1
      · exact absurd hh hn2
  have npkh : s.getD 0 0 ≠ 118 → is_p2pkh s = false := by
    intro hn
    cases hx : is_p2pkh s
    · rfl
    · exact absurd (is_p2pkh_head s hx) hn
  have nsh : s.getD 0 0 ≠ 169 → is_p2sh s = false := by
    intro hn
    cases hx : is_p2sh s
    · rfl
    · exact absurd (is_p2sh_head s hx) hn
  simp only [Bool.or_eq_true] at hcond
  rcases hhead with hh | hh | hh
  · have f1 : is_p2pk s = false := npk (by omega) (by omega)
    have f3 : is_p2sh s = false := nsh (by omega)
    rcases hcond with (ht | ht) | ht
    · exact absurd (f1 ▸ ht) (by decide)
    · exact Or.inr (Or.inl ⟨ht, f1, f3⟩)
    · exact absurd (f3 ▸ ht) (by decide)
  · have f1 : is_p2pk s = false := npk (by omega) (by omega)
    have f2 : is_p2pkh s = false := npkh (by omega)
    rcases hcond with (ht | ht) | ht
    · exact absurd (f1 ▸ ht) (by decide)
    · exact absurd (f2 ▸ ht) (by decide)
    · exact Or.inr (Or.inr ⟨ht, f1, f2⟩)
  · have f2 : is_p2pkh s = false := npkh (by omega)
    have f3 : is_p2sh s = false := nsh (by omega)
    rcases hcond with (ht | ht) | ht
    · exact Or.inl ⟨ht, f2, f3⟩
    · exact absurd (f2 ▸ ht) (by decide)
    · exact absurd (f3 ▸ ht) (by decide)

/-- C6, witness: the self-check classification at template code 0 on an
all-zero 20-byte payload: the produced script is pay-to-pubkey-hash and
neither of the other two shapes. -/
theorem c6_script_classifies_exactly_one_witness :
    (is_p2pk ([118, 169, 20] ++ (List.replicate 20 0 ++ [136, 172])) = true ∧
        is_p2pkh ([118, 169, 20] ++ (List.replicate 20 0 ++ [136, 172])) = false ∧
        is_p2sh ([118, 169, 20] ++ (List.replicate 20 0 ++ [136, 172])) = false) ∨
      (is_p2pkh ([118, 169, 20] ++ (List.replicate 20 0 ++ [136, 172])) = true ∧
        is_p2pk ([118, 169, 20] ++ (List.replicate 20 0 ++ [136, 172])) = false ∧
        is_p2sh ([118, 169, 20] ++ (List.replicate 20 0 ++ [136, 172])) = false) ∨
      (is_p2sh ([118, 169, 20] ++ (List.replicate 20 0 ++ [136, 172])) = true ∧
        is_p2pk ([118, 169, 20] ++ (List.replicate 20 0 ++ [136, 172])) = false ∧
        is_p2pkh ([118, 169, 20] ++ (List.replicate 20 0 ++ [136, 172])) = false) :=
  c6_script_classifies_exactly_one 0 (List.replicate 20 0) _ (by rfl)

/-! ### Claim C7 -/

set_option maxRecDepth 8000 in
/-- C7, counterexample: template code 2 with an all-zero 32-byte payload, a
payload that does not parse as a valid curve point (x = 0 is not on the
secp256k1 curve), succeeds instead of failing with InvalidPublicKey: the
compressed-key templates perform no curve validation at all. -/
theorem c7_no_validation_on_compressed_counterexample :
    pubkeyDecompress (2 :: List.replicate 32 0) = none ∧
      decompress_script 2 (List.replicate 32 0) =
        .ok ([33, 2] ++ (List.replicate 32 0 ++ [172])) :=
  ⟨by rfl, by rfl⟩

/-- C7, amended: only the uncompressed-key templates (codes 4 and 5)
validate the payload: when the payload prefixed with code minus 2 does not
parse as a valid elliptic-curve point they fail with the distinct
invalidPublicKey failure (the modelled bad-PublicKey panic); codes 2 and 3
perform no curve validation and succeed on any 32-byte payload; and
decompress_script performs no payload-size check, so there is no
InvalidPayloadLength failure. -/
theorem c7_pubkey_failure_only_uncompressed :
    (∀ (c : Nat) (payload : List Nat), (c = 4 ∨ c = 5) →
        pubkeyDecompress ((c - 2) :: payload) = none →
        decompress_script c payload = .error .invalidPublicKey) ∧
      (∀ (c : Nat) (payload : List Nat), (c = 2 ∨ c = 3) → payload.length = 32 →
        decompress_script c payload = .ok ([33, c] ++ (payload ++ [172]))) := by
  constructor
  · intro c payload hc hnone
    have hb : buildScript c payload = .error .invalidPublicKey := by
      rcases hc with rfl | rfl <;> (unfold buildScript; simp [hnone])
    unfold decompress_script
    rw [hb]
  · exact fun c payload hc h => decompress_script_code23 c payload hc h

set_option maxRecDepth 8000 in
/-- C7, witness: code 4 on the all-zero payload fails with
invalidPublicKey, while code 3 on the same payload succeeds. -/
theorem c7_pubkey_failure_only_uncompressed_witness :
    decompress_script 4 (List.replicate 32 0) = .error .invalidPublicKey ∧
      decompress_script 3 (List.replicate 32 0) =
        .ok ([33, 3] ++ (List.replicate 32 0 ++ [172])) :=
  ⟨c7_pubkey_failure_only_uncompressed.1 4 _ (Or.inl rfl) (by rfl),
   c7_pubkey_failure_only_uncompressed.2 3 _ (Or.inr rfl) (by simp)⟩

/-! ### Claim C8 -/

theorem U64_eq : U64 = 18446744073709551616 := by norm_num [U64]

theorem decompress_amount_eq (x : Nat) (hx : x ≠ 0) :
    decompress_amount x =
      mulPow10
        (if (x - 1) % 10 < 9 then (x - 1) / 10 / 9 * 10 + ((x - 1) / 10 % 9 + 1)
          else (x - 1) / 10 + 1)
        ((x - 1) % 10) := by
  unfold decompress_amount
  rw [if_neg hx]

theorem mulPow10_even (k : Nat) : ∀ n : Nat, 1 ≤ k → mulPow10 n k % 2 = 0 := by
  induction k with
  | zero => intro n h; omega
  | succ k ih =>
    intro n _
    by_cases hk : 1 ≤ k
    · exact ih (n * 10 % U64) hk
    · have hk0 : k = 0 := by omega
      subst hk0
      show n * 10 % U64 % 2 = 0
      rw [Nat.mod_mod_of_dvd _ (by norm_num [U64])]
      omega

theorem stripTZ_mul (f : Nat) : ∀ n : Nat, (stripTZ f n).1 * 10 ^ (stripTZ f n).2 = n := by
  induction f with
  | zero => intro n; simp [stripTZ]
  | succ f ih =>
    intro n
    unfold stripTZ
    split_ifs with h10
    · dsimp only
      rw [pow_succ]
      calc (stripTZ f (n / 10)).1 * (10 ^ (stripTZ f (n / 10)).2 * 10)
          = (stripTZ f (n / 10)).1 * 10 ^ (stripTZ f (n / 10)).2 * 10 := by ring
        _ = n / 10 * 10 := by rw [ih (n / 10)]
        _ = n := Nat.div_mul_cancel (Nat.dvd_of_mod_eq_zero h10)
    · simp

theorem stripTZ_le (f : Nat) : ∀ n : Nat, (stripTZ f n).2 ≤ f := by
  induction f with
  | zero => intro n; simp [stripTZ]
  | succ f ih =>
    intro n
    unfold stripTZ
    split_ifs with h10
    · dsimp only
      have := ih (n / 10)
      omega
    · simp

theorem stripTZ_mod10 (f : Nat) : ∀ n : Nat, (stripTZ f n).2 < f →
    (stripTZ f n).1 % 10 ≠ 0 := by
  induction f with
  | zero => intro n h; omega
  | succ f ih =>
    intro n h
    unfold stripTZ at h ⊢
    split_ifs at h ⊢ with h10
    · dsimp only at h ⊢
      exact ih (n / 10) (by omega)
    · exact h10

theorem compress_decompress (v : Nat) (hv : v ≤ 2049638230412172401) :
    compress_amount v < U64 ∧ decompress_amount (compress_amount v) = v := by
  by_cases h0 : v = 0
  · subst h0
    exact ⟨by rw [U64_eq]; decide, rfl⟩
  · rcases hse : stripTZ 9 v with ⟨m, e⟩
    have hmul : m * 10 ^ e = v := by
      have := stripTZ_mul 9 v
      rw [hse] at this
      exact this
    have hle : e ≤ 9 := by
      have := stripTZ_le 9 v
      rw [hse] at this
      exact this
    have hm0 : m ≠ 0 := fun hz => h0 (by rw [← hmul, hz, zero_mul])
    have hmlev : m ≤ v := by
      calc m = m * 1 := (mul_one m).symm
        _ ≤ m * 10 ^ e := Nat.mul_le_mul_left m (Nat.one_le_pow _ _ (by norm_num))
        _ = v := hmul
    have hvU : v < U64 := by rw [U64_eq]; omega
    have hcv : compress_amount v =
        if e < 9 then 1 + (m / 10 * 9 + m % 10 - 1) * 10 + e
        else 1 + (m - 1) * 10 + 9 := by
      unfold compress_amount
      rw [if_neg h0, hse]
    by_cases he9 : e < 9
    · have hd : m % 10 ≠ 0 := by
        have := stripTZ_mod10 9 v (by rw [hse]; exact he9)
        rw [hse] at this
        exact this
      rw [hcv, if_pos he9]
      constructor
      · -- the compressed value fits in a u64
        rw [U64_eq]
        by_cases he0 : e = 0
        · subst he0
          rw [pow_zero, mul_one] at hmul
          omega
        · have hpe : 10 ≤ 10 ^ e := by
            calc 10 = 10 ^ 1 := (pow_one 10).symm
              _ ≤ 10 ^ e := Nat.pow_le_pow_right (by norm_num) (by omega)
          have h10m : 10 * m ≤ v := by
            calc 10 * m = m * 10 := by ring
              _ ≤ m * 10 ^ e := Nat.mul_le_mul_left m hpe
              _ = v := hmul
          omega
      · -- decompressing the compressed value returns v
        have hx0 : 1 + (m / 10 * 9 + m % 10 - 1) * 10 + e ≠ 0 := by omega
        rw [decompress_amount_eq _ hx0]
        have he' : (1 + (m / 10 * 9 + m % 10 - 1) * 10 + e - 1) % 10 = e := by omega
        have hq9 : (1 + (m / 10 * 9 + m % 10 - 1) * 10 + e - 1) / 10 / 9 = m / 10 := by
          omega
        have hq9m : (1 + (m / 10 * 9 + m % 10 - 1) * 10 + e - 1) / 10 % 9 = m % 10 - 1 := by
          omega
        rw [he', hq9, hq9m, if_pos he9]
        have hn : m / 10 * 10 + (m % 10 - 1 + 1) = m := by omega
        rw [hn]
        rw [mulPow10_eq e m (by omega)]
        rw [hmul, Nat.mod_eq_of_lt hvU]
    · have he' : e = 9 := by omega
      subst he'
      rw [hcv, if_neg he9]
      have hmv : m * 1000000000 = v := by
        rw [← hmul]; norm_num
      constructor
      · rw [U64_eq]; omega
      · have hx0 : 1 + (m - 1) * 10 + 9 ≠ 0 := by omega
        rw [decompress_amount_eq _ hx0]
        have he2 : (1 + (m - 1) * 10 + 9 - 1) % 10 = 9 := by omega
        have hq : (1 + (m - 1) * 10 + 9 - 1) / 10 = m - 1 := by omega
        rw [he2, hq, if_neg (by omega)]
        have hn : m - 1 + 1 = m := by omega
        rw [hn]
        rw [mulPow10_eq 9 m (by omega)]
        rw [hmul, Nat.mod_eq_of_lt hvU]

/-- C8, counterexample: decompress_amount is not surjective onto u64: the
satoshi value 2 ^ 64 - 1 has no u64 preimage.  With a zero trailing-digit
exponent the base value is bounded well below 2 ^ 64 - 1, and with a
nonzero exponent the result is even while 2 ^ 64 - 1 is odd. -/
theorem c8_not_surjective_counterexample :
    ¬ ∃ x : Nat, x < U64 ∧ decompress_amount x = U64 - 1 := by
  rintro ⟨x, hx, hd⟩
  rw [U64_eq] at hx hd
  by_cases h0 : x = 0
  · rw [h0] at hd
    have : decompress_amount 0 = 0 := rfl
    omega
  · rw [decompress_amount_eq x h0] at hd
    by_cases he : (x - 1) % 10 = 0
    · rw [he, if_pos (by omega)] at hd
      have : mulPow10 ((x - 1) / 10 / 9 * 10 + ((x - 1) / 10 % 9 + 1)) 0 =
          (x - 1) / 10 / 9 * 10 + ((x - 1) / 10 % 9 + 1) := rfl
      omega
    · have hpar := mulPow10_even ((x - 1) % 10)
        (if (x - 1) % 10 < 9 then (x - 1) / 10 / 9 * 10 + ((x - 1) / 10 % 9 + 1)
          else (x - 1) / 10 + 1) (by omega)
      omega

/-- C8, amended: decompress_amount with a u64 input is not surjective onto
u64 satoshi values (2 ^ 64 - 1 has no preimage, since its compressed form
needs more than 64 bits); what holds is that 0 decodes to 0 and every
satoshi value up to 2049638230412172401 (the floor of (2 ^ 64 - 1) / 9) has
a u64 compressed preimage. -/
theorem c8_surjective_below_ninth_of_u64 :
    (∀ v : Nat, v ≤ 2049638230412172401 →
        ∃ x : Nat, x < U64 ∧ decompress_amount x = v) ∧
      decompress_amount 0 = 0 :=
  ⟨fun v hv => ⟨compress_amount v, (compress_decompress v hv).1,
    (compress_decompress v hv).2⟩, rfl⟩

/-- C8, witness: the 50-BTC subsidy value 5000000000 has a u64 preimage. -/
theorem c8_surjective_below_ninth_of_u64_witness :
    ∃ x : Nat, x < U64 ∧ decompress_amount x = 5000000000 :=
  c8_surjective_below_ninth_of_u64.1 5000000000 (by norm_num)

/-! ### Claim C9 -/

/-- C9: on the synthetic one-transaction, one-input undo buffer (compact
size counts 1 and 1, height marker 0x00, reserved 0x00, compressed amount
byte 0x32 decoding to 5000000000 satoshis, template code 0x00 and a 20-byte
hash), decoding from zeroed Stats succeeds with count 1, histogram
[1,0,0,0,0,0,0], value total 5000000000 and script-size total 25, and
consumes the whole buffer (empty remainder). -/
theorem c9_end_to_end_synthetic_buffer (hash : List Nat) (hlen : hash.length = 20) :
    blockundo_decode (1 :: 1 :: 0 :: 0 :: 50 :: 0 :: hash) zeroStats =
      (⟨1, [1, 0, 0, 0, 0, 0, 0], 5000000000, 25⟩, .ok []) := by
  have hv0 : ∀ l : List Nat, varint_decode (0 :: l) 0 = .ok (0, l) := fun l => rfl
  have hv50 : ∀ l : List Nat, varint_decode (50 :: l) 0 = .ok (50, l) := fun l => rfl
  have hcs : ∀ l : List Nat, compactSizeDecode (1 :: l) = .ok (1, l) := fun l => rfl
  have hda : decompress_amount 50 = 5000000000 := rfl
  have hdb : decode_bytes hash 20 = .ok (hash, []) := by
    unfold decode_bytes
    rw [if_pos (le_of_eq hlen.symm)]
    rw [← hlen, List.take_length, List.drop_length]
  have hds := decompress_script_code0 hash hlen
  have hlscr : ([118, 169, 20] ++ (hash ++ [136, 172])).length = 25 := by simp [hlen]
  simp only [blockundo_decode, undo_txs, undo_inputs, undo_input_decode, script_decode,
    hcs, hv0, hv50, hda, hdb, hds, hlscr, SPECIAL_SCRIPTS, statsBump, zeroStats]
  norm_num [hdb, hds, hlscr, List.set]
  omega

/-- C9, witness: the buffer built from the all-zero 20-byte hash. -/
theorem c9_end_to_end_synthetic_buffer_witness :
    blockundo_decode (1 :: 1 :: 0 :: 0 :: 50 :: 0 :: List.replicate 20 0) zeroStats =
      (⟨1, [1, 0, 0, 0, 0, 0, 0], 5000000000, 25⟩, .ok []) :=
  c9_end_to_end_synthetic_buffer (List.replicate 20 0) (by simp)

/-! ### Claim C10 -/

theorem sum_set_succ (l : List Nat) : ∀ i : Nat, i < l.length →
    (l.set i (l.getD i 0 + 1)).sum = l.sum + 1 := by
  induction l with
  | nil => intro i hi; simp at hi
  | cons a l ih =>
    intro i hi
    cases i with
    | zero => simp [List.getD_cons_zero]; omega
    | succ i =>
      simp only [List.set, List.getD_cons_succ, List.sum_cons]
      rw [ih i (by simpa using hi)]
      omega

theorem statsBump_inv (s : Stats) (i : Nat) (hi : i < 7) (h : countHistInv s) :
    countHistInv (statsBump s i) := by
  obtain ⟨h7, hsum⟩ := h
  constructor
  · simp [statsBump, List.length_set, h7]
  · show s.count + 1 = (s.count_by_type.set i (s.count_by_type.getD i 0 + 1)).sum
    rw [sum_set_succ s.count_by_type i (by omega)]
    omega

theorem script_decode_inv (l : List Nat) (s : Stats) (h : countHistInv s) :
    countHistInv (script_decode l s).1 := by
  unfold script_decode
  split
  · exact h
  · rename_i len l1 hveq
    have hs6 : SPECIAL_SCRIPTS = 6 := rfl
    split
    · next hlt =>
      have h7 : len < 7 := by omega
      split
      · exact statsBump_inv s len h7 h
      · split
        · exact statsBump_inv s len h7 h
        · exact statsBump_inv s len h7 h
    · split
      · exact statsBump_inv s 6 (by omega) h
      · exact statsBump_inv s 6 (by omega) h

theorem undo_input_inv (l : List Nat) (s : Stats) (h : countHistInv s) :
    countHistInv (undo_input_decode l s).1 := by
  unfold undo_input_decode
  split
  · exact h
  · split
    · exact h
    · split
      · exact h
      · split
        · exact h
        · rename_i x lx hveq
          split
          · next s2 e heq =>
            have hinv := script_decode_inv lx
              { s with spent := s.spent + decompress_amount x } h
            rw [heq] at hinv
            exact hinv
          · next s2 script l4 heq =>
            have hinv := script_decode_inv lx
              { s with spent := s.spent + decompress_amount x } h
            rw [heq] at hinv
            exact hinv

theorem undo_inputs_inv (k : Nat) : ∀ (l : List Nat) (s : Stats), countHistInv s →
    countHistInv (undo_inputs k l s).1 := by
  induction k with
  | zero => intro l s h; exact h
  | succ k ih =>
    intro l s h
    unfold undo_inputs
    split
    · next s1 e heq =>
      have hinv := undo_input_inv l s h
      rw [heq] at hinv
      exact hinv
    · next s1 l1 heq =>
      apply ih
      have hinv := undo_input_inv l s h
      rw [heq] at hinv
      exact hinv

theorem undo_txs_inv (k : Nat) : ∀ (l : List Nat) (s : Stats), countHistInv s →
    countHistInv (undo_txs k l s).1 := by
  induction k with
  | zero => intro l s h; exact h
  | succ k ih =>
    intro l s h
    unfold undo_txs
    split
    · exact h
    · rename_i txin l1 hcseq
      split
      · next s1 e heq =>
        have hinv := undo_inputs_inv txin l1 s h
        rw [heq] at hinv
        exact hinv
      · next s1 l2 heq =>
        apply ih
        have hinv := undo_inputs_inv txin l1 s h
        rw [heq] at hinv
        exact hinv

theorem blockundo_inv (data : List Nat) (s : Stats) (h : countHistInv s) :
    countHistInv (blockundo_decode data s).1 := by
  unfold blockundo_decode
  split
  · exact h
  · exact undo_txs_inv _ _ s h

/-- C10: the histogram is consistent with the record count: from any Stats
whose count equals the sum of its seven histogram buckets, a successful
script_decode call (which increments the count and exactly one bucket)
preserves the equality, and hence so does every successful
blockundo_decode pass. -/
theorem c10_count_equals_histogram_sum :
    (∀ (l : List Nat) (s s1 : Stats) (script rest : List Nat),
        script_decode l s = (s1, .ok (script, rest)) →
        s.count_by_type.length = 7 → s.count = s.count_by_type.sum →
        s1.count = s1.count_by_type.sum) ∧
      (∀ (data : List Nat) (s s1 : Stats) (rest : List Nat),
        blockundo_decode data s = (s1, .ok rest) →
        s.count_by_type.length = 7 → s.count = s.count_by_type.sum →
        s1.count = s1.count_by_type.sum) := by
  constructor
  · intro l s s1 script rest hdec h7 hsum
    have hinv := script_decode_inv l s ⟨h7, hsum⟩
    rw [hdec] at hinv
    exact hinv.2
  · intro data s s1 rest hdec h7 hsum
    have hinv := blockundo_inv data s ⟨h7, hsum⟩
    rw [hdec] at hinv
    exact hinv.2

/-- C10, witness: decoding one template-0 script from zeroed Stats yields
count 1 and histogram [1,0,0,0,0,0,0], whose sum is 1. -/
theorem c10_count_equals_histogram_sum_witness :
    (⟨1, [1, 0, 0, 0, 0, 0, 0], 0, 0⟩ : Stats).count =
      (⟨1, [1, 0, 0, 0, 0, 0, 0], 0, 0⟩ : Stats).count_by_type.sum :=
  c10_count_equals_histogram_sum.1 (0 :: List.replicate 20 0) zeroStats
    ⟨1, [1, 0, 0, 0, 0, 0, 0], 0, 0⟩
    ([118, 169, 20] ++ (List.replicate 20 0 ++ [136, 172])) []
    (by rfl) (by rfl) (by rfl)

end BenchRest
